import Mathlib

/-!
# CloudCore: the Terraform job worker (`exec/terraform/terraform.go`)

A shallow embedding of `terraformRun`, `getCmd`, `buildParams` and
`createTmpDirs`.  Go strings are Lean strings (the job is decoded from JSON, so
its strings are valid UTF-8) and Go's `len` on a string is the UTF-8 byte
count.  Every call that leaves the process (database, SSH agent, file system,
child processes, random tokens) is recorded as an `Event`, and its answer is
read from a `World` of oracles.
-/

namespace CloudCore

/-! ## Go standard library: `path.Clean`, `path.Join` (`filepath.Join` on Unix) -/

/-- The text between the slashes of a path, in order (`"a//b"` gives `a`, the
empty element and `b`). -/
def splitSlash : List Char → List (List Char)
  | [] => [[]]
  | c :: cs =>
    if c = '/' then [] :: splitSlash cs
    else
      match splitSlash cs with
      | [] => [[c]]
      | x :: xs => (c :: x) :: xs

/-- One element of `path.Clean`'s loop.  `stack` holds the elements written so
far, the last one first.  Empty and `.` elements are dropped; a `..` element
removes the last real element, is kept in front of a relative path that has
none, and is dropped at the root; any other element is written. -/
def cleanStep (rooted : Bool) (stack : List (List Char)) (c : List Char) :
    List (List Char) :=
  if c = [] then stack
  else if c = ['.'] then stack
  else if c = ['.', '.'] then
    match stack with
    | [] => if rooted then [] else [c]
    | top :: rest =>
      if top = ['.', '.'] then (if rooted then stack else c :: stack) else rest
  else c :: stack

/-- What every element kept by `path.Clean` satisfies: it is not empty, it is
not `.`, and it holds no slash. -/
def ProperElem (c : List Char) : Prop := c ≠ [] ∧ c ≠ ['.'] ∧ '/' ∉ c

/-- The elements `path.Clean` keeps, first one first. -/
def cleanElems (rooted : Bool) (p : List Char) : List (List Char) :=
  ((splitSlash p).foldl (cleanStep rooted) []).reverse

/-- Elements joined by single slashes. -/
def joinSlash : List (List Char) → List Char
  | [] => []
  | [x] => x
  | x :: y :: rest => x ++ '/' :: joinSlash (y :: rest)

/-- Go's `path.Clean`: the shortest path equivalent to `p` by lexical
processing; the empty path becomes `.`. -/
def pathClean (p : String) : String :=
  if p = "" then "."
  else
    let rooted : Bool := p.data.head? = some '/'
    let elems := cleanElems rooted p.data
    if rooted then String.mk ('/' :: joinSlash elems)
    else if elems = [] then "."
    else String.mk (joinSlash elems)

/-- The elements of `strings.Join(elem, "/")`. -/
def slashJoin : List String → String
  | [] => ""
  | [e] => e
  | e :: f :: rest => e ++ "/" ++ slashJoin (f :: rest)

/-- Go's `path.Join`: leading empty elements are ignored, the rest is joined
with slashes and cleaned; with only empty elements the result is empty. -/
def pathJoin : List String → String
  | [] => ""
  | e :: es => if e = "" then pathJoin es else pathClean (slashJoin (e :: es))

/-- Go's `strings.Join(elems, sep)`. -/
def stringsJoin (sep : String) : List String → String
  | [] => ""
  | [e] => e
  | e :: f :: rest => e ++ sep ++ stringsJoin sep (f :: rest)

/-- Go's `strings.Repeat(s, n)` for a one-character string. -/
def stringsRepeat (c : Char) (n : Nat) : String :=
  String.mk (List.replicate n c)

/-- Go's `len` on a string: the number of bytes. -/
def len (s : String) : Nat := s.utf8ByteSize

/-- Go's `strconv.Itoa`. -/
def Itoa (n : Int) : String := toString n

/-! ## Data model (`types.TerraformJob`, the fields the worker touches) -/

/-- The persisted job record `j.Job`. -/
structure Job where
  ID : String
  Name : String
  JobType : String
  Directory : String
  Vars : List (String × String)
  Target : String
  UpdateOnLaunch : Bool
  Status : String
  JobExplanation : String
  ResultStdout : String
  JobARGS : List String
  JobENV : List String
  deriving DecidableEq, Repr

/-- A machine or network credential: encrypted key and encrypted passphrase. -/
structure Credential where
  SSHKeyData : String
  SSHKeyUnlock : String
  deriving DecidableEq, Repr

/-- The cloud credential descriptor; `Cloud` says whether one is configured. -/
structure CloudCredential where
  Cloud : Bool
  Descriptor : String
  deriving DecidableEq, Repr

/-- The sandbox path set `types.JobPaths`. -/
structure JobPaths where
  Etc : String
  Tmp : String
  VarLib : String
  VarLibJobStatus : String
  VarLibProjects : String
  VarLog : String
  TmpRand : String
  ProjectRoot : String
  CredentialPath : String
  deriving DecidableEq, Repr

/-- The queue payload `types.TerraformJob`.  `PreviousJob` is the record of the
predecessor, when there is one; `ProjectID` is `j.Project.ID.Hex()`. -/
structure TerraformJob where
  Job : CloudCore.Job
  PreviousJob : Option CloudCore.Job
  Machine : Credential
  Network : Credential
  Cloud : CloudCredential
  Token : String
  ProjectID : String
  Paths : JobPaths
  deriving DecidableEq, Repr

/-- Everything observable the worker does outside its own memory. -/
inductive Event where
  | status (s : String)
  | start
  | jobFail (explanation stdout : String)
  | jobError (explanation stdout : String)
  | jobSuccess (explanation stdout : String)
  | findPrevious (id : String)
  | startAgent
  | getKey (data : String) (passphrase : Option String)
  | agentAdd (key : String)
  | mkdirAll (path : String) (perm : Nat)
  | writeFile (path content : String) (perm : Nat)
  | getCloudCredential (env : List String)
  | combinedOutput (args env : List String)
  | cmdStart (args env : List String)
  | timerArm (seconds : Nat)
  | cmdWait
  | timerStop
  | sshcleanup
  | removeAll (path : String)
  deriving DecidableEq, Repr

/-- The random tokens one run draws from `uniuri`, in the order of the calls:
nine `uniuri.New()` in `getCmd`, one `uniuri.NewLen(5)` in `buildParams`. -/
structure Rand where
  root : String
  etc : String
  tmp : String
  varLib : String
  varLibJobStatus : String
  varLibProjects : String
  varLog : String
  tmpRand : String
  credentialPath : String
  varFile : String

/-- The answers of the collaborators during one run, and `util.Config`. -/
structure World where
  /-- `util.Config.ProjectsHome` -/
  ProjectsHome : String
  /-- `util.Config.GetUrl()` -/
  url : String
  /-- `os.Getenv("HOME")` -/
  home : String
  /-- `util.Config.TerraformJobTimeOut` -/
  TerraformJobTimeOut : Nat
  rand : Rand
  /-- The lookup of the predecessor at each tick; `none` is a lookup error. -/
  polls : Nat → Option Job
  /-- `util.Decipher` -/
  decipher : String → String
  /-- `ssh.GetKey` -/
  getKey : String → Option String → Except String String
  /-- The error of `client.Add`, if any. -/
  agentAdd : String → Option String
  /-- The socket and pid of `ssh.StartAgent`. -/
  socket : String
  pid : Int
  /-- `hclencoder.Encode`: the bytes and the error, if any. -/
  hclEncode : List (String × String) → String × Option String
  /-- `misc.GetCloudCredential`: the new environment and the file, or an error. -/
  getCloudCredential : List String → CloudCredential →
    Except String (List String × Option String)
  /-- `getCmd.CombinedOutput()`: the output and the error, if any. -/
  getOutput : String × Option String
  /-- The error of `cmd.Start()`, if any, and the buffer at that moment. -/
  startErr : Option String
  startBuf : String
  /-- The error of `cmd.Wait()`, if any (a kill by the timer is one), and the
  buffer at that moment. -/
  waitErr : Option String
  waitBuf : String

/-! ## `buildParams` -/

/-- The tail of `buildParams` (lines 488-511), reached by `apply`, `plan` and
unknown job types: the variable file when the job has variables (an encoding
or write error is only logged), then the directory when one is set. -/
def varsAndDirectory (w : World) (j : TerraformJob) (params : List String) :
    List String × List Event :=
  let withVars : List String × List Event :=
    if j.Job.Vars.length > 0 then
      let vars := (w.hclEncode j.Job.Vars).1
      let path := pathJoin [j.Paths.TmpRand, w.rand.varFile ++ ".tfvars"]
      (params ++ ["-var-file=" ++ path], [Event.writeFile path vars 0o600])
    else (params, [])
  if len j.Job.Directory > 0 then (withVars.1 ++ [j.Job.Directory], withVars.2)
  else withVars

/-- The source's `buildParams(j, params)`: the tool arguments for the job type,
and the file writes it performs. -/
def buildParams (w : World) (j : TerraformJob) (params : List String) :
    List String × List Event :=
  if j.Job.JobType = "apply" then
    varsAndDirectory w j (params ++ ["apply", "-input=false"])
  else if j.Job.JobType = "plan" then
    varsAndDirectory w j (params ++ ["plan", "-input=false"])
  else if j.Job.JobType = "destroy" then
    let params := params ++ ["destroy", "-force", "-target", j.Job.Target]
    if len j.Job.Directory > 0 then (params ++ [j.Job.Directory], [])
    else (params, [])
  else if j.Job.JobType = "destroy_plan" then
    let params := params ++ ["plan", "-destory"]
    if len j.Job.Directory > 0 then (params ++ [j.Job.Directory], [])
    else (params, [])
  else varsAndDirectory w j params

/-! ## `createTmpDirs` and `getCmd` -/

/-- The source's `createTmpDirs(j)`: eight `os.MkdirAll(_, 0770)`, each one
attempted whatever the others returned (a failure is only logged). -/
def createTmpDirs (j : TerraformJob) : List Event :=
  [Event.mkdirAll j.Paths.Etc 0o770,
   Event.mkdirAll j.Paths.CredentialPath 0o770,
   Event.mkdirAll j.Paths.Tmp 0o770,
   Event.mkdirAll j.Paths.TmpRand 0o770,
   Event.mkdirAll j.Paths.VarLib 0o770,
   Event.mkdirAll j.Paths.VarLibJobStatus 0o770,
   Event.mkdirAll j.Paths.VarLibProjects 0o770,
   Event.mkdirAll j.Paths.VarLog 0o770]

/-- An `exec.Cmd` as built by `exec.Command("proot", args...)`: `Args` holds
the program name followed by the arguments. -/
structure Cmd where
  Args : List String
  Dir : String
  Env : List String
  deriving DecidableEq, Repr

/-- What `getCmd` leaves behind: the job it mutated, the calls it made, and its
return values: the main command, the dependency-fetch command and the calls
the returned cleanup closure makes when it is invoked, or the error. -/
structure GetCmdResult where
  j : TerraformJob
  events : List Event
  result : Except String (Cmd × Cmd × List Event)

/-- The execution environment `cmd.Env` as first assigned in `getCmd`. -/
def execEnv (w : World) (j : TerraformJob) (socket : String) (pid : Int) :
    List String :=
  ["PROJECT_PATH=" ++ pathJoin [w.ProjectsHome, j.ProjectID],
   "HOME_PATH=" ++ w.ProjectsHome,
   "PWD=" ++ pathJoin [w.ProjectsHome, j.ProjectID],
   "SHLVL=0",
   "HOME=" ++ w.home,
   "_=/usr/bin/cloudcored",
   "PROOT_NO_SECCOMP=1",
   "PATH=/bin:/usr/local/sbin:/usr/local/bin:/usr/sbin:/usr/bin:/sbin:/bin",
   "REST_API_TOKEN=" ++ j.Token,
   "JOB_ID=" ++ j.Job.ID,
   "REST_API_URL=" ++ w.url,
   "SSH_AUTH_SOCK=" ++ socket,
   "SSH_AGENT_PID=" ++ Itoa pid]

/-- The redacted environment assigned to `j.Job.JobENV` in `getCmd`. -/
def redactedEnv (w : World) (j : TerraformJob) (socket : String) (pid : Int) :
    List String :=
  ["PROJECT_PATH=" ++ pathJoin [w.ProjectsHome, j.ProjectID],
   "HOME_PATH=" ++ w.ProjectsHome,
   "PWD=" ++ pathJoin [w.ProjectsHome, j.ProjectID],
   "SHLVL=0",
   "HOME=" ++ w.home,
   "PROOT_NO_SECCOMP=1",
   "_=/usr/bin/cloudcored",
   "PATH=/bin:/usr/local/sbin:/usr/local/bin:/usr/sbin:/usr/bin:/sbin:/bin",
   "REST_API_TOKEN=" ++ stringsRepeat '*' (len j.Token),
   "JOB_ID=" ++ j.Job.ID,
   "REST_API_URL=" ++ w.url,
   "SSH_AUTH_SOCK=" ++ socket,
   "SSH_AGENT_PID=" ++ Itoa pid]

/-- The bind-mount and working-directory arguments `args` of `getCmd`, from the
paths already stored in `j.Paths`. -/
def prootArgs (w : World) (j : TerraformJob) : List String :=
  ["-v", "0", "-r", "/",
   "-b", j.Paths.Etc ++ ":/etc/cloudcore",
   "-b", j.Paths.Tmp ++ ":/tmp",
   "-b", j.Paths.VarLib ++ ":/var/lib/cloudcore",
   "-b", j.Paths.VarLibProjects ++ ":" ++ w.ProjectsHome,
   "-b", j.Paths.VarLog ++ ":/var/log",
   "-b", j.Paths.TmpRand ++ ":" ++ j.Paths.TmpRand,
   "-b", pathJoin [w.ProjectsHome, j.ProjectID] ++ ":" ++
      pathJoin [w.ProjectsHome, j.ProjectID],
   "-b", "/var/lib/cloudcore:/var/lib/cloudcore",
   "-w", pathJoin [w.ProjectsHome, j.ProjectID]]

/-- The path allocation at the head of `getCmd` (lines 348-359): the private
root `tmp` with six random subtrees, the scratch path, the project root and the
credential path. -/
def allocPaths (w : World) (j : TerraformJob) : TerraformJob :=
  let tmp := "/tmp/cloud_core_proot_" ++ w.rand.root ++ "/"
  { j with Paths :=
    { Etc := pathJoin [tmp, w.rand.etc],
      Tmp := pathJoin [tmp, w.rand.tmp],
      VarLib := pathJoin [tmp, w.rand.varLib],
      VarLibJobStatus := pathJoin [tmp, w.rand.varLibJobStatus],
      VarLibProjects := pathJoin [tmp, w.rand.varLibProjects],
      VarLog := pathJoin [tmp, w.rand.varLog],
      TmpRand := "/tmp/cloud_core__" ++ w.rand.tmpRand,
      ProjectRoot := pathJoin [w.ProjectsHome, j.ProjectID],
      CredentialPath := "/tmp/cloud_core_" ++ w.rand.credentialPath } }

/-- The source's `getCmd(j, socket, pid)`. -/
def getCmd (w : World) (j : TerraformJob) (socket : String) (pid : Int) :
    GetCmdResult :=
  let tmp := "/tmp/cloud_core_proot_" ++ w.rand.root ++ "/"
  let j : TerraformJob := allocPaths w j
  let dirs := createTmpDirs j
  let args := prootArgs w j
  let built := buildParams w j ["terraform"]
  let JobARGS := args ++ built.1
  let j : TerraformJob :=
    { j with Job := { j.Job with JobARGS := [stringsJoin " " JobARGS] } }
  let cmdDir := pathJoin [w.ProjectsHome, j.ProjectID]
  let cmdEnv := execEnv w j socket pid
  let j : TerraformJob :=
    { j with Job := { j.Job with JobENV := redactedEnv w j socket pid } }
  let tget := args ++ ["terraform", "get"]
  let tget := if j.Job.UpdateOnLaunch then tget ++ ["-update"] else tget
  let tget := if len j.Job.Directory > 0 then tget ++ [j.Job.Directory] else tget
  let pathCleanup : List Event :=
    [Event.removeAll tmp, Event.removeAll j.Paths.TmpRand,
     Event.removeAll j.Paths.CredentialPath]
  if j.Cloud.Cloud then
    match w.getCloudCredential cmdEnv j.Cloud with
    | Except.error err =>
      { j := j, events := dirs ++ built.2 ++ [Event.getCloudCredential cmdEnv],
        result := Except.error err }
    | Except.ok (env, f) =>
      { j := j, events := dirs ++ built.2 ++ [Event.getCloudCredential cmdEnv],
        result := Except.ok
          ({ Args := "proot" :: JobARGS, Dir := cmdDir, Env := env },
           { Args := "proot" :: tget, Dir := cmdDir, Env := env },
           (match f with
            | some name => [Event.removeAll name]
            | none => []) ++ pathCleanup) }
  else
    { j := j, events := dirs ++ built.2,
      result := Except.ok
        ({ Args := "proot" :: JobARGS, Dir := cmdDir, Env := cmdEnv },
         { Args := "proot" :: tget, Dir := cmdDir, Env := cmdEnv },
         pathCleanup) }

/-! ## The job status reporter -/

/-- The state of a run: the job in memory and the calls made so far. -/
structure Run where
  j : TerraformJob
  trace : List Event
  deriving DecidableEq, Repr

/-- One more call in the trace. -/
def Run.emit (r : Run) (e : Event) : Run := { r with trace := r.trace ++ [e] }

/-- The assignment `j.Job.JobExplanation = e`. -/
def Run.setExplanation (r : Run) (e : String) : Run :=
  { r with j := { r.j with Job := { r.j.Job with JobExplanation := e } } }

/-- The assignment `j.Job.ResultStdout = s`. -/
def Run.setStdout (r : Run) (s : String) : Run :=
  { r with j := { r.j with Job := { r.j.Job with ResultStdout := s } } }

/-- Modelled from the spec: `status(j, s)` is not in the source file.  The
reporter sets the job's externally visible status to `s` and persists it. -/
def status (r : Run) (s : String) : Run :=
  { j := { r.j with Job := { r.j.Job with Status := s } },
    trace := r.trace ++ [Event.status s] }

/-- Modelled from the spec: `start(j)` is not in the source file.  The
reporter moves the job to `running`. -/
def start (r : Run) : Run :=
  { j := { r.j with Job := { r.j.Job with Status := "running" } },
    trace := r.trace ++ [Event.start] }

/-- Modelled from the spec: `jobFail(j)` is not in the source file.  The
reporter moves the job to `failed` and persists its explanation and output. -/
def jobFail (r : Run) : Run :=
  { j := { r.j with Job := { r.j.Job with Status := "failed" } },
    trace := r.trace ++ [Event.jobFail r.j.Job.JobExplanation r.j.Job.ResultStdout] }

/-- Modelled from the spec: `jobError(j)` is not in the source file.  The
reporter moves the job to `error` and persists its explanation and output. -/
def jobError (r : Run) : Run :=
  { j := { r.j with Job := { r.j.Job with Status := "error" } },
    trace := r.trace ++ [Event.jobError r.j.Job.JobExplanation r.j.Job.ResultStdout] }

/-- Modelled from the spec: `jobSuccess(j)` is not in the source file.  The
reporter moves the job to `successful` and persists its explanation and
output. -/
def jobSuccess (r : Run) : Run :=
  { j := { r.j with Job := { r.j.Job with Status := "successful" } },
    trace := r.trace ++ [Event.jobSuccess r.j.Job.JobExplanation r.j.Job.ResultStdout] }

/-! ## `terraformRun` -/

/-- The explanation text built when the predecessor failed (line 161). -/
def previousFailed (name id : String) : String :=
  "Previous Task Failed: \x7b\"job_type\": \"project_update\", \"job_name\": \"" ++
    name ++ "\", \"job_id\": \"" ++ id ++ "\"\x7d"

/-- The loop `for range ticker.C` of `terraformRun` (lines 154-177), from tick
`tick` on, with `fuel` ticks left to observe; `prev` is `j.PreviousJob.Job`.
The result is `none` while the loop has not ended; otherwise the run and
whether `terraformRun` goes on (`false`: it has returned). -/
def waitPrevious (w : World) : Nat → Nat → Run → Job → Option (Run × Bool)
  | 0, _, _, _ => none
  | fuel + 1, tick, r, prev =>
    let r := r.emit (Event.findPrevious prev.ID)
    match w.polls tick with
    | none => waitPrevious w fuel (tick + 1) r prev
    | some p =>
      let r : Run := { r with j := { r.j with PreviousJob := some p } }
      if p.Status = "failed" ∨ p.Status = "error" then
        let e := previousFailed r.j.Job.Name p.ID
        let r := r.setExplanation e
        let r := r.setStdout "stdout capture is missing"
        some (jobError r, false)
      else if p.Status = "successful" then some (r, true)
      else waitPrevious w fuel (tick + 1) r p

/-- One `ssh.GetKey` followed by `if client.Add(key); err != nil` (the block
repeated at lines 192-209, 212-229, 235-251 and 254-271).  The statement
`client.Add(key)` drops its result and the condition reads the `err` of
`ssh.GetKey`, which is nil at that point, so the block after it never runs.
The flag says whether `terraformRun` goes on. -/
def loadKey (w : World) (r : Run) (data : String) (passphrase : Option String) :
    Run × Bool :=
  let r := r.emit (Event.getKey data passphrase)
  match w.getKey data passphrase with
  | Except.error err => (jobFail (r.setExplanation err), false)
  | Except.ok key => (r.emit (Event.agentAdd key), true)

/-- The machine credential step of `terraformRun` (lines 190-231). -/
def machineKeys (w : World) (r : Run) : Run × Bool :=
  if len r.j.Machine.SSHKeyData > 0 then
    let first :=
      if len r.j.Machine.SSHKeyUnlock > 0 then
        loadKey w r (w.decipher r.j.Machine.SSHKeyData)
          (some (w.decipher r.j.Machine.SSHKeyUnlock))
      else (r, true)
    if first.2 then loadKey w first.1 (w.decipher r.j.Machine.SSHKeyData) none
    else first
  else (r, true)

/-- The network credential step of `terraformRun` (lines 233-273).  Both calls
of `ssh.GetKey` are given `util.Decipher(j.Machine.SSHKeyData)`. -/
def networkKeys (w : World) (r : Run) : Run × Bool :=
  if len r.j.Network.SSHKeyData > 0 then
    let first :=
      if len r.j.Network.SSHKeyUnlock > 0 then
        loadKey w r (w.decipher r.j.Machine.SSHKeyData)
          (some (w.decipher r.j.Network.SSHKeyUnlock))
      else (r, true)
    if first.2 then loadKey w first.1 (w.decipher r.j.Machine.SSHKeyData) none
    else first
  else (r, true)

/-- The deferred function of `terraformRun` (lines 286-294): the agent cleanup,
then the cleanup closure returned by `getCmd`. -/
def deferred (cleanup : List Event) (r : Run) : Run :=
  { r with trace := r.trace ++ Event.sshcleanup :: cleanup }

/-- The two child processes of `terraformRun` (lines 295-343), run once
`getCmd` has returned its commands; the deferred cleanup runs on each return. -/
def execute (w : World) (r : Run) (cmd getC : Cmd) (cleanup : List Event) : Run :=
  let r := r.emit (Event.combinedOutput getC.Args getC.Env)
  match w.getOutput.2 with
  | some _ =>
    let r := r.setExplanation "terraform get failed"
    let r := r.setStdout w.getOutput.1
    deferred cleanup (jobFail r)
  | none =>
    let r := r.emit (Event.cmdStart cmd.Args cmd.Env)
    match w.startErr with
    | some err =>
      let r := r.setExplanation err
      let r := r.setStdout w.startBuf
      deferred cleanup (jobFail r)
    | none =>
      let r := r.emit (Event.timerArm w.TerraformJobTimeOut)
      let r := r.emit Event.cmdWait
      match w.waitErr with
      | some err =>
        let r := r.setExplanation err
        let r := r.setStdout w.waitBuf
        let r := jobFail r
        let r := r.emit Event.timerStop
        deferred cleanup r
      | none =>
        let r := r.emit Event.timerStop
        let r := r.setStdout w.waitBuf
        deferred cleanup (jobSuccess r)

/-- The part of `terraformRun` after the wait for the predecessor (lines
180-343). -/
def provision (w : World) (r : Run) : Run :=
  let r := start r
  let r := r.emit Event.startAgent
  let m := machineKeys w r
  if m.2 then
    let n := networkKeys w m.1
    if n.2 then
      let r := n.1
      let g := getCmd w r.j w.socket w.pid
      let r : Run := { j := g.j, trace := r.trace ++ g.events }
      match g.result with
      | Except.error err =>
        let r := r.setStdout "stdout capture is missing"
        let r := r.setExplanation err
        jobFail r
      | Except.ok (cmd, getC, cleanup) => execute w r cmd getC cleanup
    else n.1
  else m.1

/-- The source's `terraformRun(j)`, observing at most `fuel` ticks of the wait
for the predecessor: `none` when the wait has not ended by then, otherwise the
job and the trace at the return. -/
def terraformRun (w : World) (fuel : Nat) (j : TerraformJob) : Option Run :=
  match j.PreviousJob with
  | some prev =>
    match waitPrevious w fuel 0 (status { j := j, trace := [] } "waiting") prev with
    | none => none
    | some (r, true) => some (provision w r)
    | some (r, false) => some r
  | none => some (provision w { j := j, trace := [] })

/-! ## Classes of calls -/

/-- Calls that end a job: `jobFail`, `jobError`, `jobSuccess`, with the status
each one leaves. -/
def Event.terminalStatus : Event → Option String
  | Event.jobFail _ _ => some "failed"
  | Event.jobError _ _ => some "error"
  | Event.jobSuccess _ _ => some "successful"
  | _ => none

/-- Calls of the status reporter. -/
def Event.isStatusCall : Event → Bool
  | Event.status _ => true
  | Event.start => true
  | Event.jobFail _ _ => true
  | Event.jobError _ _ => true
  | Event.jobSuccess _ _ => true
  | _ => false

/-- Calls that release a resource: the agent cleanup and `os.RemoveAll`. -/
def Event.isCleanup : Event → Bool
  | Event.sshcleanup => true
  | Event.removeAll _ => true
  | _ => false

/-- Calls of `ssh.GetKey`. -/
def Event.isGetKey : Event → Bool
  | Event.getKey _ _ => true
  | _ => false

/-- Calls made while waiting for the predecessor, and the report that it
failed. -/
def Event.isWaitCall : Event → Bool
  | Event.status _ => true
  | Event.findPrevious _ => true
  | Event.jobError _ _ => true
  | _ => false

/-- Calls of `ioutil.WriteFile`. -/
def Event.isWriteFile : Event → Bool
  | Event.writeFile _ _ _ => true
  | _ => false

/-- Launches of a child process: `CombinedOutput` and `Start`. -/
def Event.isCommand : Event → Bool
  | Event.combinedOutput _ _ => true
  | Event.cmdStart _ _ => true
  | _ => false

/-- A run still under way: no final status has been reported. -/
def Running (r : Run) : Prop := ∀ x ∈ r.trace, x.terminalStatus = none

/-- A run that has reported its final status: exactly one of `jobFail`,
`jobError`, `jobSuccess` was called, no call of the status reporter came after
it, and the job carries the status that call leaves. -/
def Finished (r : Run) : Prop :=
  ∃ pre e post s, r.trace = pre ++ e :: post ∧ e.terminalStatus = some s ∧
    (∀ x ∈ pre, x.terminalStatus = none) ∧ (∀ x ∈ post, x.isStatusCall = false) ∧
    r.j.Job.Status = s ∧ (s = "successful" ∨ s = "failed" ∨ s = "error")

/-! ## Concrete jobs and worlds -/

/-- A world in which every collaborator succeeds: keys parse unless the key
material is empty, the agent accepts every key, both child processes exit
cleanly and the tool prints a plan. -/
def sampleWorld : World where
  ProjectsHome := "/opt/cloudcore/projects"
  url := "http://localhost:8010"
  home := "/root"
  TerraformJobTimeOut := 3600
  rand :=
    { root := "Rq3aZp0LmN8sT1uV", etc := "a1B2c3D4e5F6g7H8", tmp := "b1B2c3D4e5F6g7H8",
      varLib := "c1B2c3D4e5F6g7H8", varLibJobStatus := "d1B2c3D4e5F6g7H8",
      varLibProjects := "e1B2c3D4e5F6g7H8", varLog := "f1B2c3D4e5F6g7H8",
      tmpRand := "g1B2c3D4e5F6g7H8", credentialPath := "h1B2c3D4e5F6g7H8",
      varFile := "x9Y8z" }
  polls := fun _ => none
  decipher := fun s => if s = "" then "" else "plain:" ++ s
  getKey := fun data _ =>
    if data = "" then Except.error "ssh: no key found" else Except.ok ("key:" ++ data)
  agentAdd := fun _ => none
  socket := "/tmp/ssh-agent.sock"
  pid := 4711
  hclEncode := fun _ => ("region = \"eu-west-1\"\n", none)
  getCloudCredential := fun env _ => Except.ok (env ++ ["AWS_ACCESS_KEY_ID=AKIA"], some "/tmp/cred")
  getOutput := ("", none)
  startErr := none
  startBuf := ""
  waitErr := none
  waitBuf := "Plan: 1 to add"

/-- A `plan` job with no predecessor, no variables and no credentials. -/
def sampleJob : TerraformJob where
  Job :=
    { ID := "5a1b2c3d4e5f6a7b8c9d0e1f", Name := "net", JobType := "plan",
      Directory := "", Vars := [], Target := "", UpdateOnLaunch := false,
      Status := "pending", JobExplanation := "", ResultStdout := "",
      JobARGS := [], JobENV := [] }
  PreviousJob := none
  Machine := { SSHKeyData := "", SSHKeyUnlock := "" }
  Network := { SSHKeyData := "", SSHKeyUnlock := "" }
  Cloud := { Cloud := false, Descriptor := "" }
  Token := "s3cr3t"
  ProjectID := "5a1b2c3d4e5f6a7b8c9d0e20"
  Paths :=
    { Etc := "", Tmp := "", VarLib := "", VarLibJobStatus := "", VarLibProjects := "",
      VarLog := "", TmpRand := "", ProjectRoot := "", CredentialPath := "" }

/-- The sample world, except that `ssh.GetKey` rejects every key. -/
def brokenKeyWorld : World :=
  { sampleWorld with getKey := fun _ _ => Except.error "ssh: no key found" }

/-- The sample world, except that the agent refuses every key. -/
def refusingAgentWorld : World :=
  { sampleWorld with agentAdd := fun _ => some "agent: failure" }

/-- The sample world, except that the cloud credential cannot be written. -/
def brokenCloudWorld : World :=
  { sampleWorld with getCloudCredential := fun _ _ => Except.error "cloud credential failed" }

/-- The record of the predecessor of `dependentJob` when it was enqueued. -/
def previousRecord : Job :=
  { sampleJob.Job with ID := "5a1b2c3d4e5f6a7b8c9d0e00", Name := "update" }

/-- The record of the predecessor once it has failed. -/
def previousFailedRecord : Job :=
  { previousRecord with Status := "failed" }

/-- The sample world with a predecessor whose first lookup fails and that is
found failed at the second tick. -/
def failedPreviousWorld : World :=
  { sampleWorld with polls := fun n => if n = 0 then none else some previousFailedRecord }

/-- The sample job with a machine key. -/
def machineKeyJob : TerraformJob :=
  { sampleJob with Machine := { SSHKeyData := "enc-machine-key", SSHKeyUnlock := "" } }

/-- The sample job with a machine key and a different network key. -/
def twoKeysJob : TerraformJob :=
  { sampleJob with
    Machine := { SSHKeyData := "enc-machine-key", SSHKeyUnlock := "" },
    Network := { SSHKeyData := "enc-network-key", SSHKeyUnlock := "" } }

/-- The sample job with a cloud credential. -/
def cloudJob : TerraformJob :=
  { sampleJob with Cloud := { Cloud := true, Descriptor := "aws" } }

/-- The sample job behind a predecessor. -/
def dependentJob : TerraformJob :=
  { sampleJob with PreviousJob := some previousRecord }

/-- The sample job as a `destroy_plan`. -/
def destroyPlanJob : TerraformJob :=
  { sampleJob with Job := { sampleJob.Job with JobType := "destroy_plan" } }

/-- An `apply` job with one variable in the directory `infra/net`, its scratch
path already allocated. -/
def applyJob : TerraformJob :=
  { sampleJob with
    Job := { sampleJob.Job with JobType := "apply", Directory := "infra/net",
                                Vars := [("region", "eu-west-1")] },
    Paths := { sampleJob.Paths with TmpRand := "/tmp/cloud_core__g1B2c3D4e5F6g7H8" } }

/-- A `destroy` job for the target `web-1`, with a variable and no directory. -/
def destroyJob : TerraformJob :=
  { sampleJob with
    Job := { sampleJob.Job with JobType := "destroy", Target := "web-1",
                                Vars := [("region", "eu-west-1")] } }

/-! ## Strings and paths -/

theorem len_pos_iff (s : String) : 0 < len s ↔ s ≠ "" := by
  cases s with
  | mk cs =>
    cases cs with
    | nil => simp [len]; rfl
    | cons c cs =>
      have hc := Char.utf8Size_pos c
      simp only [len, String.utf8ByteSize_mk, String.utf8Len_cons]
      constructor
      · intro _ h
        exact absurd (congrArg String.data h) (by simp)
      · intro _; omega

theorem len_stringsRepeat (n : Nat) : len (stringsRepeat '*' n) = n := by
  induction n with
  | zero => rfl
  | succ n ih =>
    simp only [len, stringsRepeat, String.utf8ByteSize_mk] at ih ⊢
    rw [List.replicate_succ, String.utf8Len_cons, ih]
    rfl

theorem splitSlash_ne_nil (p : List Char) : splitSlash p ≠ [] := by
  induction p with
  | nil => simp [splitSlash]
  | cons c cs ih =>
    unfold splitSlash
    split
    · simp
    · split
      · simp
      · simp

theorem splitSlash_append_slash (a b : List Char) :
    splitSlash (a ++ '/' :: b) = splitSlash a ++ splitSlash b := by
  induction a with
  | nil => simp [splitSlash]
  | cons c cs ih =>
    by_cases hc : c = '/'
    · simp [splitSlash, hc, ih]
    · have hne := splitSlash_ne_nil cs
      cases hs : splitSlash cs with
      | nil => exact absurd hs hne
      | cons x xs => simp [splitSlash, hc, ih, hs]

theorem splitSlash_of_no_slash (n : List Char) (h : '/' ∉ n) : splitSlash n = [n] := by
  induction n with
  | nil => rfl
  | cons c cs ih =>
    have hc : c ≠ '/' := fun e => h (by simp [e])
    have hcs : '/' ∉ cs := fun e => h (by simp [e])
    simp [splitSlash, hc, ih hcs]

theorem splitSlash_mem_no_slash (p : List Char) : ∀ x ∈ splitSlash p, '/' ∉ x := by
  induction p with
  | nil => simp [splitSlash]
  | cons c cs ih =>
    by_cases hc : c = '/'
    · simp only [splitSlash, hc, if_true, List.mem_cons]
      rintro x (rfl | hx)
      · simp
      · exact ih x hx
    · cases hs : splitSlash cs with
      | nil => exact absurd hs (splitSlash_ne_nil cs)
      | cons y ys =>
        rw [hs] at ih
        simp only [splitSlash, hc, if_false, hs, List.mem_cons]
        rintro x (rfl | hx)
        · have hy := ih y (by simp)
          simp only [List.mem_cons, not_or]
          exact ⟨fun e => hc e.symm, hy⟩
        · exact ih x (by simp [hx])

theorem cleanStep_proper (rooted : Bool) (stack : List (List Char)) (c : List Char)
    (hs : ∀ x ∈ stack, ProperElem x) (hc : '/' ∉ c) :
    ∀ x ∈ cleanStep rooted stack c, ProperElem x := by
  unfold cleanStep
  by_cases h1 : c = []
  · simpa [h1] using hs
  by_cases h2 : c = ['.']
  · simpa [h2] using hs
  by_cases h3 : c = ['.', '.']
  · have hdd : ProperElem c := ⟨h1, h2, hc⟩
    rw [if_neg h1, if_neg h2, if_pos h3]
    cases stack with
    | nil =>
      cases rooted <;> simp [hdd]
    | cons top rest =>
      by_cases ht : top = ['.', '.']
      · cases rooted
        · simp only [if_pos ht, Bool.false_eq_true, if_false]
          intro x hx
          rcases List.mem_cons.1 hx with rfl | hx
          · exact hdd
          · exact hs x hx
        · simp only [if_pos ht, if_true]
          exact hs
      · simp only [if_neg ht]
        intro x hx
        exact hs x (by simp [hx])
  · simp only [h1, h2, h3, if_false]
    intro x hx
    rcases List.mem_cons.1 hx with rfl | hx
    · exact ⟨h1, h2, hc⟩
    · exact hs x hx

theorem foldl_cleanStep_proper (rooted : Bool) (cs : List (List Char)) :
    ∀ stack : List (List Char), (∀ x ∈ stack, ProperElem x) → (∀ c ∈ cs, '/' ∉ c) →
      ∀ x ∈ cs.foldl (cleanStep rooted) stack, ProperElem x := by
  induction cs with
  | nil => intro stack hs _; simpa using hs
  | cons c cs ih =>
    intro stack hs hc
    simp only [List.foldl_cons]
    exact ih _ (cleanStep_proper rooted stack c hs (hc c (by simp)))
      (fun d hd => hc d (by simp [hd]))

theorem cleanElems_proper (rooted : Bool) (p : List Char) :
    ∀ x ∈ cleanElems rooted p, ProperElem x := by
  intro x hx
  simp only [cleanElems, List.mem_reverse] at hx
  exact foldl_cleanStep_proper rooted _ [] (by simp) (splitSlash_mem_no_slash p) x hx

theorem cleanElems_append_name (rooted : Bool) (a n : List Char) (hn : '/' ∉ n)
    (h1 : n ≠ []) (h2 : n ≠ ['.']) (h3 : n ≠ ['.', '.']) :
    cleanElems rooted (a ++ '/' :: n) = cleanElems rooted a ++ [n] := by
  simp [cleanElems, splitSlash_append_slash, splitSlash_of_no_slash n hn, List.foldl_append,
    cleanStep, h1, h2, h3]

theorem cleanElems_name (rooted : Bool) (n : List Char) (hn : '/' ∉ n)
    (h1 : n ≠ []) (h2 : n ≠ ['.']) (h3 : n ≠ ['.', '.']) :
    cleanElems rooted n = [n] := by
  simp [cleanElems, splitSlash_of_no_slash n hn, cleanStep, h1, h2, h3]

theorem joinSlash_append_singleton (cs : List (List Char)) (n : List Char) :
    joinSlash (cs ++ [n]) = if cs = [] then n else joinSlash cs ++ '/' :: n := by
  induction cs with
  | nil => simp [joinSlash]
  | cons x xs ih =>
    cases xs with
    | nil => simp [joinSlash]
    | cons y ys =>
      simp only [List.cons_append, joinSlash] at ih ⊢
      simp [ih]

theorem joinSlash_eq_nil (cs : List (List Char)) (h : ∀ x ∈ cs, ProperElem x) :
    joinSlash cs = [] ↔ cs = [] := by
  cases cs with
  | nil => simp [joinSlash]
  | cons x xs =>
    have hx := (h x (by simp)).1
    cases xs with
    | nil => simp [joinSlash, hx]
    | cons y ys => simp [joinSlash, hx]

theorem joinSlash_ne_dot (cs : List (List Char)) (h : ∀ x ∈ cs, ProperElem x) :
    joinSlash cs ≠ ['.'] := by
  cases cs with
  | nil => simp [joinSlash]
  | cons x xs =>
    have hx := h x (by simp)
    cases xs with
    | nil => simpa [joinSlash] using hx.2.1
    | cons y ys =>
      intro e
      have hl := congrArg List.length e
      have : 0 < x.length := List.length_pos.2 hx.1
      simp [joinSlash] at hl
      omega

theorem joinSlash_ne_slash (cs : List (List Char)) (h : ∀ x ∈ cs, ProperElem x) :
    joinSlash cs ≠ ['/'] := by
  cases cs with
  | nil => simp [joinSlash]
  | cons x xs =>
    have hx := h x (by simp)
    cases xs with
    | nil =>
      intro e
      simp only [joinSlash] at e
      exact hx.2.2 (by simp [e])
    | cons y ys =>
      intro e
      have hl := congrArg List.length e
      have : 0 < x.length := List.length_pos.2 hx.1
      simp [joinSlash] at hl
      omega

theorem pathClean_name (name : String) (hs : '/' ∉ name.data) (hl : 3 ≤ name.data.length) :
    pathClean name = name := by
  have h1 : name.data ≠ [] := by intro e; simp [e] at hl
  have h2 : name.data ≠ ['.'] := by intro e; simp [e] at hl
  have h3 : name.data ≠ ['.', '.'] := by intro e; simp [e] at hl
  have hne : name ≠ "" := by intro e; simp [e] at hl
  have hr : (decide (name.data.head? = some '/')) = false := by
    cases hd : name.data with
    | nil => exact absurd hd h1
    | cons c cs =>
      have : c ≠ '/' := fun e => hs (by simp [hd, e])
      simp [this]
  simp only [pathClean, if_neg hne, hr, cleanElems_name false name.data hs h1 h2 h3]
  simp [joinSlash]

theorem pathJoin_file (T name : String) (hs : '/' ∉ name.data) (hl : 3 ≤ name.data.length) :
    pathJoin [T, name] =
      (if pathClean T = "/" then "/" else if pathClean T = "." then ""
       else pathClean T ++ "/") ++ name := by
  have h1 : name.data ≠ [] := by intro e; simp [e] at hl
  have h2 : name.data ≠ ['.'] := by intro e; simp [e] at hl
  have h3 : name.data ≠ ['.', '.'] := by intro e; simp [e] at hl
  have hne : name ≠ "" := by intro e; simp [e] at hl
  by_cases hT : T = ""
  · subst hT
    have hc : pathClean "" = "." := by decide
    simp only [pathJoin, if_true, if_neg hne, slashJoin, hc]
    rw [pathClean_name name hs hl]
    simp [String.ext_iff]
  · have hTd : T.data ≠ [] := fun e => hT (String.ext e)
    have hj : T ++ "/" ++ name ≠ "" := by
      intro e
      have := congrArg String.data e
      simp at this
    have hd : (T ++ "/" ++ name).data = T.data ++ '/' :: name.data := by simp
    have hh : (T.data ++ '/' :: name.data).head? = T.data.head? := by
      cases hq : T.data with
      | nil => exact absurd hq hTd
      | cons c cs => simp
    have hp := cleanElems_proper (decide (T.data.head? = some '/')) T.data
    simp only [pathJoin, if_neg hT, slashJoin, pathClean, if_neg hj, hd, hh,
      cleanElems_append_name _ T.data name.data hs h1 h2 h3, joinSlash_append_singleton]
    generalize cleanElems (decide (T.data.head? = some '/')) T.data = E at hp
    cases hr : decide (T.data.head? = some '/')
    · by_cases hE : E = []
      · simp [hE, String.ext_iff]
      · have hdot := joinSlash_ne_dot E hp
        have hsl := joinSlash_ne_slash E hp
        simp [hE, String.ext_iff, hdot, hsl]
    · by_cases hE : E = []
      · simp [hE, String.ext_iff, joinSlash]
      · have hnil : joinSlash E ≠ [] := fun e => hE ((joinSlash_eq_nil E hp).1 e)
        simp [hE, String.ext_iff, hnil]

/-! ## `buildParams` -/

theorem varFile_name_no_slash (rnd : String) (hr : ∀ c ∈ rnd.data, c.isAlphanum = true) :
    '/' ∉ (rnd ++ ".tfvars").data := by
  intro h
  rw [String.data_append, List.mem_append] at h
  rcases h with h | h
  · exact absurd (hr _ h) (by decide)
  · exact absurd h (by decide)

theorem buildParams_destroy (w : World) (j : TerraformJob) (params : List String)
    (ht : j.Job.JobType = "destroy") (hd : j.Job.Directory = "") :
    buildParams w j params =
      (params ++ ["destroy", "-force", "-target", j.Job.Target], []) := by
  have h0 : ¬ (0 < len "") := by decide
  have h1 : ("destroy" : String) ≠ "apply" := by decide
  have h2 : ("destroy" : String) ≠ "plan" := by decide
  simp [buildParams, ht, hd, h0, h1, h2]

/-- C7: on a `destroy_plan` job with no directory `buildParams` returns
`terraform plan -destory`, with the flag misspelt, and not the
`terraform plan -destroy` the claim states. -/
theorem buildParams_destroy_plan_misspelt :
    buildParams sampleWorld destroyPlanJob ["terraform"] =
      (["terraform", "plan", "-destory"], []) ∧
    (buildParams sampleWorld destroyPlanJob ["terraform"]).1 ≠
      ["terraform", "plan", "-destroy"] := by
  decide

/-- C8: for an `apply` job with a non-empty variable map and a non-empty
directory, `buildParams(j, ["terraform"])` writes exactly one file, with
permissions 0600, at the path `p` made of the cleaned scratch path
`j.Paths.TmpRand`, one slash and the slash-free file name (the random token,
letters and digits as `uniuri` draws them, and `.tfvars`), and returns
`terraform apply -input=false -var-file=p directory`. -/
theorem buildParams_apply_var_file (w : World) (j : TerraformJob)
    (ht : j.Job.JobType = "apply") (hv : j.Job.Vars ≠ []) (hd : j.Job.Directory ≠ "")
    (hr : ∀ c ∈ w.rand.varFile.data, c.isAlphanum = true) :
    ∃ p : String,
      buildParams w j ["terraform"] =
        (["terraform", "apply", "-input=false", "-var-file=" ++ p, j.Job.Directory],
         [Event.writeFile p (w.hclEncode j.Job.Vars).1 0o600]) ∧
      p = pathJoin [j.Paths.TmpRand, w.rand.varFile ++ ".tfvars"] ∧
      p = (if pathClean j.Paths.TmpRand = "/" then "/"
           else if pathClean j.Paths.TmpRand = "." then ""
           else pathClean j.Paths.TmpRand ++ "/") ++ (w.rand.varFile ++ ".tfvars") ∧
      '/' ∉ (w.rand.varFile ++ ".tfvars").data := by
  have hs := varFile_name_no_slash w.rand.varFile hr
  have hl : 3 ≤ (w.rand.varFile ++ ".tfvars").data.length := by
    rw [String.data_append, List.length_append]
    have : (".tfvars" : String).data.length = 7 := by decide
    omega
  have hdir : 0 < len j.Job.Directory := (len_pos_iff _).2 hd
  have hvl : 0 < j.Job.Vars.length := List.length_pos.2 hv
  refine ⟨pathJoin [j.Paths.TmpRand, w.rand.varFile ++ ".tfvars"], ?_, rfl,
    pathJoin_file _ _ hs hl, hs⟩
  simp [buildParams, varsAndDirectory, ht, hdir, hvl]

theorem buildParams_apply_var_file_witness :
    (applyJob.Job.JobType = "apply" ∧ applyJob.Job.Vars ≠ [] ∧
      applyJob.Job.Directory = "infra/net" ∧
      ∀ c ∈ sampleWorld.rand.varFile.data, c.isAlphanum = true) ∧
    ∃ p : String,
      buildParams sampleWorld applyJob ["terraform"] =
        (["terraform", "apply", "-input=false", "-var-file=" ++ p, applyJob.Job.Directory],
         [Event.writeFile p (sampleWorld.hclEncode applyJob.Job.Vars).1 0o600]) ∧
      p = pathJoin [applyJob.Paths.TmpRand, sampleWorld.rand.varFile ++ ".tfvars"] ∧
      p = (if pathClean applyJob.Paths.TmpRand = "/" then "/"
           else if pathClean applyJob.Paths.TmpRand = "." then ""
           else pathClean applyJob.Paths.TmpRand ++ "/") ++
            (sampleWorld.rand.varFile ++ ".tfvars") ∧
      '/' ∉ (sampleWorld.rand.varFile ++ ".tfvars").data :=
  ⟨by decide,
   buildParams_apply_var_file sampleWorld applyJob (by decide) (by decide) (by decide)
     (by decide)⟩

/-! ## `getCmd` -/

theorem getCmd_events (w : World) (j : TerraformJob) (socket : String) (pid : Int) :
    (getCmd w j socket pid).events =
      createTmpDirs (allocPaths w j) ++ (buildParams w (allocPaths w j) ["terraform"]).2 ++
        (if j.Cloud.Cloud then [Event.getCloudCredential (execEnv w j socket pid)] else []) := by
  unfold getCmd
  simp only []
  split
  · rename_i hc
    have hc2 : j.Cloud.Cloud = true := hc
    rw [if_pos hc2]
    split <;> rfl
  · rename_i hc
    have hc2 : ¬ j.Cloud.Cloud = true := hc
    rw [if_neg hc2, List.append_nil]

theorem getCmd_main_args (w : World) (j : TerraformJob) (socket : String) (pid : Int)
    (cmd getC : Cmd) (cleanup : List Event)
    (h : (getCmd w j socket pid).result = Except.ok (cmd, getC, cleanup)) :
    cmd.Args = "proot" ::
      (prootArgs w (allocPaths w j) ++ (buildParams w (allocPaths w j) ["terraform"]).1) := by
  unfold getCmd at h
  simp only [] at h
  split at h
  · split at h
    · simp at h
    · simp only [Except.ok.injEq, Prod.mk.injEq] at h
      rw [← h.1]
  · simp only [Except.ok.injEq, Prod.mk.injEq] at h
    rw [← h.1]

theorem getCmd_ok_of_no_cloud (w : World) (j : TerraformJob) (socket : String) (pid : Int)
    (hc : j.Cloud.Cloud = false) :
    ∃ cmd getC cleanup, (getCmd w j socket pid).result = Except.ok (cmd, getC, cleanup) := by
  unfold getCmd
  simp only []
  split
  · rename_i hc2
    have hc3 : j.Cloud.Cloud = true := hc2
    rw [hc] at hc3
    exact absurd hc3 (by decide)
  · exact ⟨_, _, _, rfl⟩

/-- C9: for a `destroy` job with target `t` and no directory, `buildParams`
returns exactly `terraform destroy -force -target t` whatever the variable
map holds, `getCmd` writes no file, and the argument vector of the main
command it returns is `proot`, the bind-mount arguments and that list, so it
ends in `destroy -force -target t`. -/
theorem getCmd_destroy_args (w : World) (j : TerraformJob) (socket : String) (pid : Int)
    (cmd getC : Cmd) (cleanup : List Event)
    (ht : j.Job.JobType = "destroy") (hd : j.Job.Directory = "")
    (h : (getCmd w j socket pid).result = Except.ok (cmd, getC, cleanup)) :
    buildParams w j ["terraform"] =
      (["terraform", "destroy", "-force", "-target", j.Job.Target], []) ∧
    cmd.Args = "proot" :: (prootArgs w (allocPaths w j) ++
      ["terraform", "destroy", "-force", "-target", j.Job.Target]) ∧
    ["destroy", "-force", "-target", j.Job.Target] <:+ cmd.Args ∧
    (∀ e ∈ (getCmd w j socket pid).events, e.isWriteFile = false) := by
  have hb := buildParams_destroy w j ["terraform"] ht hd
  have hb2 := buildParams_destroy w (allocPaths w j) ["terraform"] ht hd
  have ha := getCmd_main_args w j socket pid cmd getC cleanup h
  have hj : (allocPaths w j).Job.Target = j.Job.Target := rfl
  rw [hb2, hj] at ha
  refine ⟨hb, ha, ?_, ?_⟩
  · rw [ha]
    exact ⟨"proot" :: (prootArgs w (allocPaths w j) ++ ["terraform"]), by simp⟩
  · rw [getCmd_events, hb2]
    intro e he
    simp only [List.append_nil, List.mem_append] at he
    rcases he with he | he
    · simp only [createTmpDirs, List.mem_cons, List.mem_singleton, List.not_mem_nil,
        or_false] at he
      rcases he with rfl | rfl | rfl | rfl | rfl | rfl | rfl | rfl <;> rfl
    · split at he
      · rw [List.mem_singleton] at he
        subst he
        rfl
      · simp at he

theorem getCmd_destroy_args_witness :
    (destroyJob.Job.JobType = "destroy" ∧ destroyJob.Job.Directory = "" ∧
      destroyJob.Job.Target = "web-1" ∧ destroyJob.Job.Vars ≠ [] ∧
      ∃ cmd getC cleanup,
        (getCmd sampleWorld destroyJob "/tmp/ssh-agent.sock" 4711).result =
          Except.ok (cmd, getC, cleanup) ∧
        ["destroy", "-force", "-target", "web-1"] <:+ cmd.Args) ∧
    (∀ e ∈ (getCmd sampleWorld destroyJob "/tmp/ssh-agent.sock" 4711).events,
      e.isWriteFile = false) :=
  ⟨⟨by decide, by decide, by decide, by decide, _, _, _, rfl,
    (getCmd_destroy_args sampleWorld destroyJob "/tmp/ssh-agent.sock" 4711 _ _ _
      (by decide) (by decide) rfl).2.2.1⟩,
   (getCmd_destroy_args sampleWorld destroyJob "/tmp/ssh-agent.sock" 4711 _ _ _
      (by decide) (by decide) rfl).2.2.2⟩

theorem getCmd_jobENV (w : World) (j : TerraformJob) (socket : String) (pid : Int) :
    (getCmd w j socket pid).j.Job.JobENV = redactedEnv w j socket pid := by
  unfold getCmd
  simp only []
  split
  · split <;> rfl
  · rfl

theorem getCmd_main_env (w : World) (j : TerraformJob) (socket : String) (pid : Int)
    (cmd getC : Cmd) (cleanup : List Event)
    (h : (getCmd w j socket pid).result = Except.ok (cmd, getC, cleanup)) :
    if j.Cloud.Cloud then
      ∃ f, w.getCloudCredential (execEnv w j socket pid) j.Cloud = Except.ok (cmd.Env, f)
    else cmd.Env = execEnv w j socket pid := by
  unfold getCmd at h
  simp only [] at h
  split at h
  · rename_i hc
    have hc2 : j.Cloud.Cloud = true := hc
    rw [if_pos hc2]
    split at h
    · simp at h
    · rename_i env f hg
      simp only [Except.ok.injEq, Prod.mk.injEq] at h
      refine ⟨f, ?_⟩
      rw [← h.1]
      exact hg
  · rename_i hc
    have hc2 : ¬ j.Cloud.Cloud = true := hc
    rw [if_neg hc2]
    simp only [Except.ok.injEq, Prod.mk.injEq] at h
    rw [← h.1]
    rfl

/-- C1 (as amended): after `getCmd` returns without error, `j.Job.JobENV` holds,
up to the order of the entries, the execution environment built before any
cloud credential is folded in, with the `REST_API_TOKEN` entry (index 8 in
both) replaced by `REST_API_TOKEN=` and `len(j.Token)` asterisks: the mask
has the byte length of the token and holds only `*`.  That execution
environment is `cmd.Env` when the job has no cloud credential, and the vector
handed to the cloud-credential provisioner, whose answer becomes `cmd.Env`,
when it has one. -/
theorem getCmd_redacted_env (w : World) (j : TerraformJob) (socket : String) (pid : Int)
    (cmd getC : Cmd) (cleanup : List Event)
    (h : (getCmd w j socket pid).result = Except.ok (cmd, getC, cleanup)) :
    List.Perm (getCmd w j socket pid).j.Job.JobENV
      ((execEnv w j socket pid).set 8
        ("REST_API_TOKEN=" ++ stringsRepeat '*' (len j.Token))) ∧
    (execEnv w j socket pid)[8]? = some ("REST_API_TOKEN=" ++ j.Token) ∧
    (getCmd w j socket pid).j.Job.JobENV[8]? =
      some ("REST_API_TOKEN=" ++ stringsRepeat '*' (len j.Token)) ∧
    (getCmd w j socket pid).j.Job.JobENV.length = (execEnv w j socket pid).length ∧
    len (stringsRepeat '*' (len j.Token)) = len j.Token ∧
    (∀ c ∈ (stringsRepeat '*' (len j.Token)).data, c = '*') ∧
    (if j.Cloud.Cloud then
      ∃ f, w.getCloudCredential (execEnv w j socket pid) j.Cloud = Except.ok (cmd.Env, f)
    else cmd.Env = execEnv w j socket pid) := by
  rw [getCmd_jobENV]
  refine ⟨?_, rfl, rfl, rfl, len_stringsRepeat _, ?_,
    getCmd_main_env w j socket pid cmd getC cleanup h⟩
  · simp only [execEnv, redactedEnv, List.set_cons_succ, List.set_cons_zero]
    refine List.Perm.cons _ (List.Perm.cons _ (List.Perm.cons _ (List.Perm.cons _
      (List.Perm.cons _ ?_))))
    exact List.Perm.swap _ _ _
  · intro c hc
    simp only [stringsRepeat] at hc
    exact List.eq_of_mem_replicate hc

theorem getCmd_redacted_env_witness :
    (∃ cmd getC cleanup,
      (getCmd sampleWorld sampleJob "/tmp/ssh-agent.sock" 4711).result =
        Except.ok (cmd, getC, cleanup) ∧
      cmd.Env = execEnv sampleWorld sampleJob "/tmp/ssh-agent.sock" 4711) ∧
    List.Perm (getCmd sampleWorld sampleJob "/tmp/ssh-agent.sock" 4711).j.Job.JobENV
      ((execEnv sampleWorld sampleJob "/tmp/ssh-agent.sock" 4711).set 8
        ("REST_API_TOKEN=" ++ stringsRepeat '*' (len sampleJob.Token))) :=
  ⟨⟨_, _, _, rfl, rfl⟩,
   (getCmd_redacted_env sampleWorld sampleJob "/tmp/ssh-agent.sock" 4711 _ _ _ rfl).1⟩

/-- C1 (as stated) fails: without a cloud credential the entries at index 5
of `cmd.Env` and of `j.Job.JobENV` differ although neither is the token entry,
and with a cloud credential `cmd.Env` has an entry at index 13 where
`j.Job.JobENV` has none. -/
theorem getCmd_redacted_env_not_positionwise :
    (∃ cmd getC cleanup,
      (getCmd sampleWorld sampleJob "/tmp/ssh-agent.sock" 4711).result =
        Except.ok (cmd, getC, cleanup) ∧
      cmd.Env[5]? = some "_=/usr/bin/cloudcored" ∧
      (getCmd sampleWorld sampleJob "/tmp/ssh-agent.sock" 4711).j.Job.JobENV[5]? =
        some "PROOT_NO_SECCOMP=1" ∧
      cmd.Env[5]? ≠ (getCmd sampleWorld sampleJob "/tmp/ssh-agent.sock" 4711).j.Job.JobENV[5]?) ∧
    (∃ cmd getC cleanup,
      (getCmd sampleWorld cloudJob "/tmp/ssh-agent.sock" 4711).result =
        Except.ok (cmd, getC, cleanup) ∧
      cmd.Env[13]? = some "AWS_ACCESS_KEY_ID=AKIA" ∧
      (getCmd sampleWorld cloudJob "/tmp/ssh-agent.sock" 4711).j.Job.JobENV[13]? = none) := by
  refine ⟨⟨_, _, _, rfl, ?_, ?_, ?_⟩, ⟨_, _, _, rfl, ?_, ?_⟩⟩ <;> decide

/-! ## `terraformRun`: every return reports one final status -/

theorem running_emit {r : Run} (h : Running r) {e : Event} (he : e.terminalStatus = none) :
    Running (r.emit e) := by
  intro x hx
  simp only [Run.emit, List.mem_append, List.mem_singleton] at hx
  rcases hx with hx | rfl
  · exact h x hx
  · exact he

theorem running_append {r : Run} (h : Running r) (j : TerraformJob) {es : List Event}
    (he : ∀ x ∈ es, x.terminalStatus = none) :
    Running { j := j, trace := r.trace ++ es } := by
  intro x hx
  simp only [List.mem_append] at hx
  rcases hx with hx | hx
  · exact h x hx
  · exact he x hx

theorem running_start {r : Run} (h : Running r) : Running (start r) := by
  intro x hx
  simp only [start, List.mem_append, List.mem_singleton] at hx
  rcases hx with hx | rfl
  · exact h x hx
  · rfl

theorem running_status {r : Run} (h : Running r) (s : String) : Running (status r s) := by
  intro x hx
  simp only [status, List.mem_append, List.mem_singleton] at hx
  rcases hx with hx | rfl
  · exact h x hx
  · rfl

theorem finished_jobFail {r : Run} (h : Running r) : Finished (jobFail r) :=
  ⟨r.trace, Event.jobFail r.j.Job.JobExplanation r.j.Job.ResultStdout, [], "failed",
    by simp [jobFail], rfl, h, by simp, rfl, Or.inr (Or.inl rfl)⟩

theorem finished_jobError {r : Run} (h : Running r) : Finished (jobError r) :=
  ⟨r.trace, Event.jobError r.j.Job.JobExplanation r.j.Job.ResultStdout, [], "error",
    by simp [jobError], rfl, h, by simp, rfl, Or.inr (Or.inr rfl)⟩

theorem finished_jobSuccess {r : Run} (h : Running r) : Finished (jobSuccess r) :=
  ⟨r.trace, Event.jobSuccess r.j.Job.JobExplanation r.j.Job.ResultStdout, [], "successful",
    by simp [jobSuccess], rfl, h, by simp, rfl, Or.inl rfl⟩

theorem finished_append {r : Run} (h : Finished r) (es : List Event)
    (he : ∀ x ∈ es, x.isStatusCall = false) :
    Finished { r with trace := r.trace ++ es } := by
  obtain ⟨pre, e, post, s, ht, hs, hpre, hpost, hst, hterm⟩ := h
  refine ⟨pre, e, post ++ es, s, ?_, hs, hpre, ?_, hst, hterm⟩
  · simp [ht]
  · intro x hx
    rcases List.mem_append.1 hx with hx | hx
    · exact hpost x hx
    · exact he x hx

theorem finished_emit {r : Run} (h : Finished r) {e : Event} (he : e.isStatusCall = false) :
    Finished (r.emit e) :=
  finished_append h [e] (by simpa using he)

theorem finished_deferred {r : Run} (h : Finished r) {cleanup : List Event}
    (hc : ∀ x ∈ cleanup, x.isCleanup = true) : Finished (deferred cleanup r) := by
  refine finished_append h (Event.sshcleanup :: cleanup) ?_
  intro x hx
  rcases List.mem_cons.1 hx with rfl | hx
  · rfl
  · have := hc x hx
    cases x <;> simp_all [Event.isCleanup, Event.isStatusCall]

theorem loadKey_outcome (w : World) (r : Run) (data : String) (pass : Option String)
    (h : Running r) :
    if (loadKey w r data pass).2 then Running (loadKey w r data pass).1
    else Finished (loadKey w r data pass).1 := by
  have hr : Running (r.emit (Event.getKey data pass)) := running_emit h rfl
  cases hg : w.getKey data pass with
  | error err =>
    have e : loadKey w r data pass =
        (jobFail ((r.emit (Event.getKey data pass)).setExplanation err), false) := by
      simp [loadKey, hg]
    rw [e]
    simp only [Bool.false_eq_true, if_false]
    exact finished_jobFail hr
  | ok key =>
    have e : loadKey w r data pass =
        ((r.emit (Event.getKey data pass)).emit (Event.agentAdd key), true) := by
      simp [loadKey, hg]
    rw [e]
    simp only [if_true]
    exact running_emit hr rfl

theorem machineKeys_outcome (w : World) (r : Run) (h : Running r) :
    if (machineKeys w r).2 then Running (machineKeys w r).1
    else Finished (machineKeys w r).1 := by
  by_cases hk : 0 < len r.j.Machine.SSHKeyData
  · by_cases hu : 0 < len r.j.Machine.SSHKeyUnlock
    · have h1 := loadKey_outcome w r (w.decipher r.j.Machine.SSHKeyData)
        (some (w.decipher r.j.Machine.SSHKeyUnlock)) h
      by_cases hb : (loadKey w r (w.decipher r.j.Machine.SSHKeyData)
          (some (w.decipher r.j.Machine.SSHKeyUnlock))).2 = true
      · have e : machineKeys w r = loadKey w (loadKey w r (w.decipher r.j.Machine.SSHKeyData)
            (some (w.decipher r.j.Machine.SSHKeyUnlock))).1
            (w.decipher r.j.Machine.SSHKeyData) none := by
          simp [machineKeys, hk, hu, hb]
        rw [e]
        rw [if_pos hb] at h1
        exact loadKey_outcome w _ _ none h1
      · have e : machineKeys w r = loadKey w r (w.decipher r.j.Machine.SSHKeyData)
            (some (w.decipher r.j.Machine.SSHKeyUnlock)) := by
          simp [machineKeys, hk, hu, hb]
        rw [e]
        exact h1
    · have e : machineKeys w r = loadKey w r (w.decipher r.j.Machine.SSHKeyData) none := by
        simp [machineKeys, hk, hu]
      rw [e]
      exact loadKey_outcome w r _ none h
  · have e : machineKeys w r = (r, true) := by simp [machineKeys, hk]
    rw [e]
    simpa using h

theorem networkKeys_outcome (w : World) (r : Run) (h : Running r) :
    if (networkKeys w r).2 then Running (networkKeys w r).1
    else Finished (networkKeys w r).1 := by
  by_cases hk : 0 < len r.j.Network.SSHKeyData
  · by_cases hu : 0 < len r.j.Network.SSHKeyUnlock
    · have h1 := loadKey_outcome w r (w.decipher r.j.Machine.SSHKeyData)
        (some (w.decipher r.j.Network.SSHKeyUnlock)) h
      by_cases hb : (loadKey w r (w.decipher r.j.Machine.SSHKeyData)
          (some (w.decipher r.j.Network.SSHKeyUnlock))).2 = true
      · have e : networkKeys w r = loadKey w (loadKey w r (w.decipher r.j.Machine.SSHKeyData)
            (some (w.decipher r.j.Network.SSHKeyUnlock))).1
            (w.decipher r.j.Machine.SSHKeyData) none := by
          simp [networkKeys, hk, hu, hb]
        rw [e]
        rw [if_pos hb] at h1
        exact loadKey_outcome w _ _ none h1
      · have e : networkKeys w r = loadKey w r (w.decipher r.j.Machine.SSHKeyData)
            (some (w.decipher r.j.Network.SSHKeyUnlock)) := by
          simp [networkKeys, hk, hu, hb]
        rw [e]
        exact h1
    · have e : networkKeys w r = loadKey w r (w.decipher r.j.Machine.SSHKeyData) none := by
        simp [networkKeys, hk, hu]
      rw [e]
      exact loadKey_outcome w r _ none h
  · have e : networkKeys w r = (r, true) := by simp [networkKeys, hk]
    rw [e]
    simpa using h
theorem varsAndDirectory_writes (w : World) (j : TerraformJob) (params : List String) :
    ∀ x ∈ (varsAndDirectory w j params).2, x.isWriteFile = true := by
  unfold varsAndDirectory
  simp only []
  split <;> split <;> simp [Event.isWriteFile]

theorem buildParams_writes (w : World) (j : TerraformJob) (params : List String) :
    ∀ x ∈ (buildParams w j params).2, x.isWriteFile = true := by
  unfold buildParams
  simp only []
  split
  · exact varsAndDirectory_writes w j _
  · split
    · exact varsAndDirectory_writes w j _
    · split
      · split <;> simp
      · split
        · split <;> simp
        · exact varsAndDirectory_writes w j _

theorem getCmd_events_running (w : World) (j : TerraformJob) (socket : String) (pid : Int) :
    ∀ x ∈ (getCmd w j socket pid).events, x.terminalStatus = none := by
  rw [getCmd_events]
  intro x hx
  simp only [List.mem_append] at hx
  rcases hx with (hx | hx) | hx
  · simp only [createTmpDirs, List.mem_cons, List.mem_singleton, List.not_mem_nil,
      or_false] at hx
    rcases hx with rfl | rfl | rfl | rfl | rfl | rfl | rfl | rfl <;> rfl
  · have := buildParams_writes w _ _ x hx
    cases x <;> simp_all [Event.isWriteFile, Event.terminalStatus]
  · split at hx
    · rw [List.mem_singleton] at hx
      subst hx
      rfl
    · simp at hx

theorem getCmd_cleanup (w : World) (j : TerraformJob) (socket : String) (pid : Int)
    (cmd getC : Cmd) (cleanup : List Event)
    (h : (getCmd w j socket pid).result = Except.ok (cmd, getC, cleanup)) :
    ∀ x ∈ cleanup, x.isCleanup = true := by
  unfold getCmd at h
  simp only [] at h
  split at h
  · split at h
    · simp at h
    · rename_i env f hg
      simp only [Except.ok.injEq, Prod.mk.injEq] at h
      rw [← h.2.2]
      intro x hx
      cases f with
      | none =>
        simp only [List.nil_append, List.mem_cons, List.mem_singleton, List.not_mem_nil,
          or_false] at hx
        rcases hx with rfl | rfl | rfl <;> rfl
      | some name =>
        simp only [List.singleton_append, List.mem_cons, List.mem_singleton,
          List.not_mem_nil, or_false] at hx
        rcases hx with rfl | rfl | rfl | rfl <;> rfl
  · simp only [Except.ok.injEq, Prod.mk.injEq] at h
    rw [← h.2.2]
    intro x hx
    simp only [List.mem_cons, List.mem_singleton, List.not_mem_nil, or_false] at hx
    rcases hx with rfl | rfl | rfl <;> rfl

theorem running_setExplanation {r : Run} (h : Running r) (e : String) :
    Running (r.setExplanation e) := h

theorem running_setStdout {r : Run} (h : Running r) (s : String) :
    Running (r.setStdout s) := h

theorem execute_finished (w : World) (r : Run) (cmd getC : Cmd) (cleanup : List Event)
    (h : Running r) (hc : ∀ x ∈ cleanup, x.isCleanup = true) :
    Finished (execute w r cmd getC cleanup) := by
  have h1 : Running (r.emit (Event.combinedOutput getC.Args getC.Env)) := running_emit h rfl
  have h2 : Running ((r.emit (Event.combinedOutput getC.Args getC.Env)).emit
      (Event.cmdStart cmd.Args cmd.Env)) := running_emit h1 rfl
  have h3 : Running (((r.emit (Event.combinedOutput getC.Args getC.Env)).emit
      (Event.cmdStart cmd.Args cmd.Env)).emit (Event.timerArm w.TerraformJobTimeOut)) :=
    running_emit h2 rfl
  have h4 : Running ((((r.emit (Event.combinedOutput getC.Args getC.Env)).emit
      (Event.cmdStart cmd.Args cmd.Env)).emit (Event.timerArm w.TerraformJobTimeOut)).emit
      Event.cmdWait) := running_emit h3 rfl
  unfold execute
  simp only []
  split
  · exact finished_deferred
      (finished_jobFail (running_setStdout (running_setExplanation h1 _) _)) hc
  · split
    · exact finished_deferred
        (finished_jobFail (running_setStdout (running_setExplanation h2 _) _)) hc
    · split
      · exact finished_deferred
          (finished_emit (e := Event.timerStop)
            (finished_jobFail (running_setStdout (running_setExplanation h4 _) _)) rfl) hc
      · exact finished_deferred
          (finished_jobSuccess
            (running_setStdout (running_emit (e := Event.timerStop) h4 rfl) _)) hc

theorem provision_finished (w : World) (r : Run) (h : Running r) :
    Finished (provision w r) := by
  have h0 : Running ((start r).emit Event.startAgent) := running_emit (running_start h) rfl
  have hm := machineKeys_outcome w _ h0
  unfold provision
  simp only []
  split
  · rename_i hmb
    rw [if_pos hmb] at hm
    have hn := networkKeys_outcome w _ hm
    split
    · rename_i hnb
      rw [if_pos hnb] at hn
      have hg := running_append hn
        (getCmd w (networkKeys w (machineKeys w ((start r).emit Event.startAgent)).1).1.j
          w.socket w.pid).j
        (getCmd_events_running w
          (networkKeys w (machineKeys w ((start r).emit Event.startAgent)).1).1.j
          w.socket w.pid)
      split
      · exact finished_jobFail (running_setExplanation (running_setStdout hg _) _)
      · rename_i cmd getC cleanup hres
        exact execute_finished w _ cmd getC cleanup hg
          (getCmd_cleanup w _ w.socket w.pid cmd getC cleanup hres)
    · rename_i hnb
      rw [if_neg hnb] at hn
      exact hn
  · rename_i hmb
    rw [if_neg hmb] at hm
    exact hm

theorem waitPrevious_outcome (w : World) :
    ∀ (fuel tick : Nat) (r : Run) (prev : Job) (r2 : Run) (b : Bool), Running r →
      waitPrevious w fuel tick r prev = some (r2, b) →
      if b then Running r2 else Finished r2 := by
  intro fuel
  induction fuel with
  | zero => intro tick r prev r2 b _ h; simp [waitPrevious] at h
  | succ fuel ih =>
    intro tick r prev r2 b hr h
    have hr1 : Running (r.emit (Event.findPrevious prev.ID)) := running_emit hr rfl
    unfold waitPrevious at h
    simp only [] at h
    split at h
    · exact ih _ _ _ _ _ hr1 h
    · rename_i p hp
      split at h
      · simp only [Option.some.injEq, Prod.mk.injEq] at h
        rw [← h.1, ← h.2]
        simp only [Bool.false_eq_true, if_false]
        exact finished_jobError (fun x hx => hr1 x hx)
      · split at h
        · simp only [Option.some.injEq, Prod.mk.injEq] at h
          rw [← h.1, ← h.2]
          simp only [if_true]
          exact fun x hx => hr1 x hx
        · exact ih _ _ _ _ _ (by intro x hx; exact hr1 x hx) h

/-- C3: whenever `terraformRun` returns, its trace holds exactly one call of
`jobFail`, `jobError` or `jobSuccess`, no call of the status reporter follows
it, and the job's status is the one that call leaves: `successful`, `failed`
or `error`. -/
theorem terraformRun_ends_terminal (w : World) (fuel : Nat) (j : TerraformJob) (r : Run)
    (h : terraformRun w fuel j = some r) :
    ∃ pre e post s, r.trace = pre ++ e :: post ∧ e.terminalStatus = some s ∧
      (∀ x ∈ pre, x.terminalStatus = none) ∧ (∀ x ∈ post, x.isStatusCall = false) ∧
      r.j.Job.Status = s ∧ (s = "successful" ∨ s = "failed" ∨ s = "error") := by
  have h0 : Running { j := j, trace := [] } := by intro x hx; simp at hx
  unfold terraformRun at h
  split at h
  · rename_i prev hprev
    split at h
    · simp at h
    · rename_i r2 hw
      simp only [Option.some.injEq] at h
      rw [← h]
      have hr := waitPrevious_outcome w fuel 0 _ prev r2 true (running_status h0 "waiting") hw
      simp only [if_true] at hr
      exact provision_finished w r2 hr
    · rename_i r2 hw
      simp only [Option.some.injEq] at h
      rw [← h]
      have hr := waitPrevious_outcome w fuel 0 _ prev r2 false (running_status h0 "waiting") hw
      simp only [Bool.false_eq_true, if_false] at hr
      exact hr
  · simp only [Option.some.injEq] at h
    rw [← h]
    exact provision_finished w _ h0
theorem terraformRun_ends_terminal_witness :
    ∃ r, terraformRun sampleWorld 0 sampleJob = some r ∧
      ∃ pre e post s, r.trace = pre ++ e :: post ∧ e.terminalStatus = some s ∧
        (∀ x ∈ pre, x.terminalStatus = none) ∧ (∀ x ∈ post, x.isStatusCall = false) ∧
        r.j.Job.Status = s ∧ (s = "successful" ∨ s = "failed" ∨ s = "error") :=
  ⟨_, rfl, terraformRun_ends_terminal sampleWorld 0 sampleJob _ rfl⟩

/-! ## `terraformRun`: the wait for the predecessor -/

theorem waitPrevious_returns (w : World) :
    ∀ (fuel tick : Nat) (r : Run) (prev : Job) (n : Nat), n < fuel →
      (∃ p, w.polls (tick + n) = some p ∧
        (p.Status = "failed" ∨ p.Status = "error" ∨ p.Status = "successful")) →
      (waitPrevious w fuel tick r prev).isSome = true := by
  intro fuel
  induction fuel with
  | zero => intro tick r prev n hn; omega
  | succ fuel ih =>
    intro tick r prev n hn hdec
    obtain ⟨p, hp, hs⟩ := hdec
    unfold waitPrevious
    simp only []
    split
    · rename_i hnone
      cases n with
      | zero => simp [hnone] at hp
      | succ n =>
        refine ih _ _ _ n (by omega) ⟨p, ?_, hs⟩
        rw [← hp]
        congr 1
        omega
    · rename_i q hq
      split
      · rfl
      · split
        · rfl
        · rename_i h1 h2
          cases n with
          | zero =>
            simp only [Nat.add_zero] at hp
            rw [hq] at hp
            simp only [Option.some.injEq] at hp
            subst hp
            rcases hs with hs | hs | hs
            · exact absurd (Or.inl hs) h1
            · exact absurd (Or.inr hs) h1
            · exact absurd hs h2
          | succ n =>
            refine ih _ _ _ n (by omega) ⟨p, ?_, hs⟩
            rw [← hp]
            congr 1
            omega

theorem terraformRun_returns (w : World) (fuel : Nat) (j : TerraformJob)
    (h : j.PreviousJob = none ∨ ∃ n, n < fuel ∧ ∃ p, w.polls n = some p ∧
      (p.Status = "failed" ∨ p.Status = "error" ∨ p.Status = "successful")) :
    (terraformRun w fuel j).isSome = true := by
  unfold terraformRun
  split
  · rename_i prev hprev
    rcases h with h | ⟨n, hn, p, hp, hs⟩
    · simp [hprev] at h
    · have hw := waitPrevious_returns w fuel 0 (status { j := j, trace := [] } "waiting") prev n
        hn ⟨p, by simpa using hp, hs⟩
      split
      · rename_i hnone
        simp [hnone] at hw
      · rfl
      · rfl
  · rfl

theorem waitPrevious_blocked (w : World) (p : Job)
    (hs : p.Status = "failed" ∨ p.Status = "error") :
    ∀ (n fuel tick : Nat) (r : Run) (prev : Job), n < fuel →
      (∀ m, m < n → ∀ q, w.polls (tick + m) = some q →
        q.Status ≠ "failed" ∧ q.Status ≠ "error" ∧ q.Status ≠ "successful") →
      w.polls (tick + n) = some p →
      (∀ e ∈ r.trace, e.isWaitCall = true) →
      ∃ r2, waitPrevious w fuel tick r prev = some (r2, false) ∧
        r2.j.Job.Status = "error" ∧
        r2.j.Job.JobExplanation = previousFailed r.j.Job.Name p.ID ∧
        r2.j.Job.ResultStdout = "stdout capture is missing" ∧
        r2.trace.getLast? = some (Event.jobError (previousFailed r.j.Job.Name p.ID)
          "stdout capture is missing") ∧
        (∀ e ∈ r2.trace, e.isWaitCall = true) := by
  intro n
  induction n with
  | zero =>
    intro fuel tick r prev hn _ hp hr
    cases fuel with
    | zero => omega
    | succ fuel =>
      simp only [Nat.add_zero] at hp
      unfold waitPrevious
      simp only [hp, if_pos hs]
      refine ⟨_, rfl, rfl, rfl, rfl, ?_, ?_⟩
      · simp [jobError, Run.setStdout, Run.setExplanation, Run.emit]
      · intro e he
        simp only [jobError, Run.setStdout, Run.setExplanation, Run.emit, List.mem_append,
          List.mem_singleton] at he
        rcases he with (he | rfl) | rfl
        · exact hr e he
        · rfl
        · rfl
  | succ n ih =>
    intro fuel tick r prev hn hq hp hr
    cases fuel with
    | zero => omega
    | succ fuel =>
      have hq2 : ∀ m, m < n → ∀ q, w.polls (tick + 1 + m) = some q →
          q.Status ≠ "failed" ∧ q.Status ≠ "error" ∧ q.Status ≠ "successful" := by
        intro m hm q hpq
        refine hq (m + 1) (by omega) q ?_
        rw [← hpq]
        congr 1
        omega
      have hp2 : w.polls (tick + 1 + n) = some p := by
        rw [← hp]
        congr 1
        omega
      have hr1 : ∀ e ∈ (r.emit (Event.findPrevious prev.ID)).trace, e.isWaitCall = true := by
        intro e he
        simp only [Run.emit, List.mem_append, List.mem_singleton] at he
        rcases he with he | rfl
        · exact hr e he
        · rfl
      unfold waitPrevious
      simp only []
      cases hpoll : w.polls tick with
      | none =>
        simp only []
        exact ih fuel (tick + 1) _ prev (by omega) hq2 hp2 hr1
      | some q =>
        have hnd := hq 0 (by omega) q (by simpa using hpoll)
        have h1 : ¬ (q.Status = "failed" ∨ q.Status = "error") := by
          rintro (h | h)
          · exact hnd.1 h
          · exact hnd.2.1 h
        simp only [if_neg h1, if_neg hnd.2.2]
        exact ih fuel (tick + 1) _ q (by omega) hq2 hp2 (by intro e he; exact hr1 e he)

/-- C4 (as amended): for a job with a predecessor, if the first lookup that
finds the predecessor in a final status (after any number of failed lookups
and of lookups that find it not yet final) finds it `failed` or `error`,
`terraformRun` returns once that tick is observed, having set the
explanation and the output placeholder and called `jobError`: the job's
status is `error`, and every call it made is a status call, a lookup of the
predecessor or `jobError`, so `start` was not called, no agent was started,
no directory was created and no command was built or run. -/
theorem terraformRun_previous_failed (w : World) (fuel : Nat) (j : TerraformJob)
    (prev : Job) (n : Nat) (p : Job)
    (hprev : j.PreviousJob = some prev) (hn : n < fuel)
    (hq : ∀ m, m < n → ∀ q, w.polls m = some q →
      q.Status ≠ "failed" ∧ q.Status ≠ "error" ∧ q.Status ≠ "successful")
    (hp : w.polls n = some p) (hs : p.Status = "failed" ∨ p.Status = "error") :
    ∃ r, terraformRun w fuel j = some r ∧
      r.j.Job.Status = "error" ∧
      r.j.Job.JobExplanation = previousFailed j.Job.Name p.ID ∧
      r.j.Job.ResultStdout = "stdout capture is missing" ∧
      r.trace.getLast? = some (Event.jobError (previousFailed j.Job.Name p.ID)
        "stdout capture is missing") ∧
      (∀ e ∈ r.trace, e.isWaitCall = true) ∧
      Event.start ∉ r.trace ∧ Event.startAgent ∉ r.trace := by
  obtain ⟨r2, hw, h1, h2, h3, h4, h5⟩ :=
    waitPrevious_blocked w p hs n fuel 0 (status { j := j, trace := [] } "waiting") prev hn
      (by intro m hm q hpq; exact hq m hm q (by simpa using hpq))
      (by simpa using hp)
      (by intro e he; simp only [status, List.nil_append, List.mem_singleton] at he
          subst he; rfl)
  refine ⟨r2, ?_, h1, h2, h3, h4, h5, ?_, ?_⟩
  · unfold terraformRun
    simp only [hprev, hw]
  · intro hmem
    exact absurd (h5 _ hmem) (by decide)
  · intro hmem
    exact absurd (h5 _ hmem) (by decide)

theorem terraformRun_previous_failed_witness :
    (dependentJob.PreviousJob = some previousRecord ∧
      failedPreviousWorld.polls 0 = none ∧
      failedPreviousWorld.polls 1 = some previousFailedRecord ∧
      previousFailedRecord.Status = "failed") ∧
    ∃ r, terraformRun failedPreviousWorld 2 dependentJob = some r ∧
      r.j.Job.Status = "error" ∧
      r.j.Job.JobExplanation = previousFailed dependentJob.Job.Name previousFailedRecord.ID ∧
      r.j.Job.ResultStdout = "stdout capture is missing" ∧
      r.trace.getLast? = some (Event.jobError
        (previousFailed dependentJob.Job.Name previousFailedRecord.ID)
        "stdout capture is missing") ∧
      (∀ e ∈ r.trace, e.isWaitCall = true) ∧
      Event.start ∉ r.trace ∧ Event.startAgent ∉ r.trace :=
  ⟨⟨rfl, rfl, rfl, rfl⟩,
   terraformRun_previous_failed failedPreviousWorld 2 dependentJob previousRecord 1
     previousFailedRecord rfl (by decide)
     (by
       intro m hm q hpq
       have hm0 : m = 0 := by omega
       subst hm0
       simp [failedPreviousWorld] at hpq)
     rfl (Or.inl rfl)⟩

/-- C4 (as stated) fails: with a predecessor found `failed` at the second
tick, `terraformRun` returns with the dependent job's status `error`, not
`failed`. -/
theorem terraformRun_previous_failed_gives_error :
    ∃ r, terraformRun failedPreviousWorld 2 dependentJob = some r ∧
      r.j.Job.Status = "error" ∧ r.j.Job.Status ≠ "failed" ∧
      r.trace = [Event.status "waiting",
        Event.findPrevious "5a1b2c3d4e5f6a7b8c9d0e00",
        Event.findPrevious "5a1b2c3d4e5f6a7b8c9d0e00",
        Event.jobError (previousFailed "net" "5a1b2c3d4e5f6a7b8c9d0e00")
          "stdout capture is missing"] := by
  refine ⟨_, rfl, ?_, ?_, ?_⟩ <;> decide

/-! ## `terraformRun`: runs that leave the stated behaviour -/

/-- C2: two runs that start the SSH agent and return without any cleanup.
When `ssh.GetKey` rejects the machine key, `terraformRun` returns before its
deferred cleanup is registered: the agent was started and neither the agent
cleanup nor any `os.RemoveAll` is called.  When the cloud credential fails in
`getCmd`, the sandbox directories were already created, and again the run
returns with no agent cleanup and no `os.RemoveAll`. -/
theorem terraformRun_early_return_skips_cleanup :
    (∃ r, terraformRun brokenKeyWorld 0 machineKeyJob = some r ∧
      r.j.Job.Status = "failed" ∧
      Event.startAgent ∈ r.trace ∧ (∀ e ∈ r.trace, e.isCleanup = false)) ∧
    (∃ r, terraformRun brokenCloudWorld 0 cloudJob = some r ∧
      r.j.Job.Status = "failed" ∧
      Event.startAgent ∈ r.trace ∧
      Event.mkdirAll "/tmp/cloud_core__g1B2c3D4e5F6g7H8" 0o770 ∈ r.trace ∧
      Event.mkdirAll "/tmp/cloud_core_h1B2c3D4e5F6g7H8" 0o770 ∈ r.trace ∧
      (∀ e ∈ r.trace, e.isCleanup = false)) := by
  refine ⟨⟨_, rfl, ?_, ?_, ?_⟩, ⟨_, rfl, ?_, ?_, ?_, ?_, ?_⟩⟩ <;> decide

/-- C5: a run in which `client.Add` returns an error for the decrypted machine
key and `terraformRun` goes on all the same: the key is handed to the agent,
the agent answers with an error, and the run still launches both commands and
ends `successful` with an empty explanation. -/
theorem terraformRun_ignores_agent_add_error :
    ∃ r, terraformRun refusingAgentWorld 0 machineKeyJob = some r ∧
      Event.agentAdd "key:plain:enc-machine-key" ∈ r.trace ∧
      refusingAgentWorld.agentAdd "key:plain:enc-machine-key" = some "agent: failure" ∧
      (r.trace.filter Event.isCommand).length = 2 ∧
      r.j.Job.JobExplanation = "" ∧ r.j.Job.Status = "successful" := by
  refine ⟨_, rfl, ?_, ?_, ?_, ?_, ?_⟩ <;> decide

/-- C6: a run that fails before any process is launched and leaves the output
field as it was: when `ssh.GetKey` rejects the machine key the last call is
`jobFail` with the error as explanation and the empty `ResultStdout` the job
arrived with, not the placeholder `stdout capture is missing`. -/
theorem terraformRun_key_failure_no_placeholder :
    ∃ r, terraformRun brokenKeyWorld 0 machineKeyJob = some r ∧
      r.trace.getLast? = some (Event.jobFail "ssh: no key found" "") ∧
      (∀ e ∈ r.trace, e.isCommand = false) ∧
      r.j.Job.Status = "failed" ∧ r.j.Job.ResultStdout = "" ∧
      r.j.Job.ResultStdout ≠ "stdout capture is missing" := by
  refine ⟨_, rfl, ?_, ?_, ?_, ?_, ?_⟩ <;> decide

/-- C10: a run of a job with a machine key and a different network key, neither
with a passphrase: `ssh.GetKey` is called twice, once in the machine step and
once in the network step, both times with the deciphered machine key, and
never with the deciphered network key. -/
theorem terraformRun_network_step_uses_machine_key :
    ∃ r, terraformRun sampleWorld 0 twoKeysJob = some r ∧
      r.trace.filter Event.isGetKey =
        [Event.getKey (sampleWorld.decipher twoKeysJob.Machine.SSHKeyData) none,
         Event.getKey (sampleWorld.decipher twoKeysJob.Machine.SSHKeyData) none] ∧
      Event.getKey (sampleWorld.decipher twoKeysJob.Network.SSHKeyData) none ∉ r.trace ∧
      sampleWorld.decipher twoKeysJob.Network.SSHKeyData ≠
        sampleWorld.decipher twoKeysJob.Machine.SSHKeyData := by
  refine ⟨_, rfl, ?_, ?_, ?_⟩ <;> decide

end CloudCore
